import Mathlib

/-!
# wormhole: image migration engine (`trans`) and worker pool (`job`)

A shallow embedding of `trans/trans.go` and `job/job.go`.

* The two registries are external collaborators.  They are modelled as
  handler tables acting on an arbitrary world state `σ`; every handler may
  change the world and may answer anything, so the theorems hold for every
  registry behaviour (flaky, stateful, inconsistent).
* Every engine function returns Go's result, the world after the call and
  the list of collaborator calls it issued, in program order (`Event`).
* `float64` is a parameter: a type `F` with the operations the code applies
  to it (`Float64`).  No rounding law is assumed.
* `ratelimit.NewBucketWithRate` panics on some arguments (a capacity that is
  not positive, for one).  It is a parameter too (`Ratelimit`): it either
  hands back a bucket or panics, and nothing is assumed about when.  A call
  of an engine function ends by returning its `error` or by panicking (`Exit`).
* Go's `(value, error)` results are kept as pairs, `none` standing for `nil`.
-/

namespace Wormhole

/-! ## Data model -/

/-- Go `error` values, identified by their message. -/
abbrev Error := String

/-- A content digest (`digest.Digest`, a Go string type). -/
abbrev Digest := String

/-- The operations the code applies to `float64` values. -/
class Float64 (F : Type) where
  /-- Go `x / y` on float64 -/
  div : F → F → F
  /-- Go `x * y` on float64 -/
  mul : F → F → F
  /-- Go `float64(u)` for an unsigned machine integer `u` -/
  ofUint : Nat → F
  /-- Go `int64(x)` -/
  toInt64 : F → Int
  /-- The constant `1.2` -/
  c1_2 : F

/-- Modelled from the spec: `LayerRef` (section 3), the element type of
`Manifest.Config` and `Manifest.Layers`; its declaration is not in the
sources.  The code reads only the `Digest` field. -/
structure Descriptor where
  Digest : Digest
deriving DecidableEq

/-- Modelled from the spec: `Manifest` (section 3): config, ordered layers,
media type and serialized payload; its declaration is not in the sources. -/
structure Manifest where
  MediaType : String
  Config : Descriptor
  Layers : List Descriptor
  canonical : String
deriving DecidableEq

/-- Modelled from the spec: `Manifest.Payload()`; the media type and the
serialized payload are data of the manifest (section 3), so the call hands
them back with a nil error. -/
def Manifest.Payload (m : Manifest) : String × String × Option Error :=
  (m.MediaType, m.canonical, none)

/-- Modelled from the spec: `Image` (section 3); its declaration is not in
the sources.  The code reads `Repository`, `Reference`, `Digest`, `Manifest`. -/
structure Image where
  Repository : String
  Reference : String
  Digest : String
  Manifest : Manifest
deriving DecidableEq

/-- The byte stream handed back by `DownloadLayer` (an `io.ReadCloser`),
identified by a handle. -/
structure ReadCloser where
  id : Nat
deriving DecidableEq

/-- A token bucket as built by `ratelimit.NewBucketWithRate(rate, capacity)`. -/
structure Bucket (F : Type) where
  rate : F
  capacity : Int
deriving DecidableEq

/-- The part of the rate limiter library the code calls. -/
class Ratelimit (F : Type) where
  /-- Go `ratelimit.NewBucketWithRate(rate, capacity)`: the bucket it hands
  back, or `none` when the constructor panics. -/
  NewBucketWithRate : F → Int → Option (Bucket F)

/-- How a call of a Go function with result type `error` ends: it returns an
error value (`none` for nil), or it panics. -/
inductive Exit where
  | returned (err : Option Error)
  | panicked
deriving DecidableEq

/-- The `io.Reader` handed to `UploadLayer`: the source stream itself, or the
stream wrapped by `ratelimit.Reader(reader, bucket)`.  The stream is `none`
when `DownloadLayer` returned a nil reader. -/
inductive Reader (F : Type) where
  | body (r : Option ReadCloser)
  | limited (r : Option ReadCloser) (b : Bucket F)
deriving DecidableEq

/-- One call issued by the engine, with its arguments and the answer it got. -/
inductive Event (F : Type) where
  | HasManifest (repository reference : String) (exist : Bool) (err : Option Error)
  | ManifestDigest (repository reference : String) (digest : String) (err : Option Error)
  | HasLayer (repository : String) (digest : Digest) (exist : Bool) (err : Option Error)
  | DownloadLayer (repository : String) (digest : Digest) (reader : Option ReadCloser)
      (err : Option Error)
  | UploadLayer (repository : String) (digest : Digest) (content : Reader F)
      (err : Option Error)
  | PushManifest (repository reference mediaType payload : String) (digest : String)
      (err : Option Error)
  | Close (reader : ReadCloser)
  | Println (line : String)
deriving DecidableEq

/-- The capability surface of `registry.Registry` used by the engine.  Each
handler takes the world before the call and returns Go's result together
with the world after it. -/
structure Registry (σ F : Type) where
  HasManifest : σ → String → String → (Bool × Option Error) × σ
  ManifestDigest : σ → String → String → (String × Option Error) × σ
  HasLayer : σ → String → Digest → (Bool × Option Error) × σ
  DownloadLayer : σ → String → Digest → (Option ReadCloser × Option Error) × σ
  UploadLayer : σ → String → Digest → Reader F → Option Error × σ
  PushManifest : σ → String → String → String → String → (String × Option Error) × σ

/-- Source type `Trans`: the source and destination registries. -/
structure Trans (σ F : Type) where
  Src : Registry σ F
  Dst : Registry σ F

/-- What a call of an engine function yields: Go's return value, the world
afterwards, and the calls issued, oldest first. -/
structure Outcome (σ F α : Type) where
  ret : α
  world : σ
  events : List (Event F)

section Engine

variable {σ F : Type} [Float64 F] [Ratelimit F]

/-! ## `trans/trans.go` -/

/-- Source function `Trans.Check`. -/
def Trans.Check (t : Trans σ F) (i : Image) (s : σ) : Outcome σ F (Bool × Option Error) :=
  match t.Dst.HasManifest s i.Repository i.Reference with
  | ((exist, err), s1) =>
    let e1 : Event F := .HasManifest i.Repository i.Reference exist err
    match err with
    | some e => ⟨(false, some e), s1, [e1]⟩
    | none =>
      if !exist then ⟨(true, none), s1, [e1]⟩
      else
        match t.Dst.ManifestDigest s1 i.Repository i.Reference with
        | ((digestDst, err), s2) =>
          let e2 : Event F := .ManifestDigest i.Repository i.Reference digestDst err
          match err with
          | some e => ⟨(false, some e), s2, [e1, e2]⟩
          | none =>
            if i.Digest ≠ digestDst then ⟨(true, none), s2, [e1, e2]⟩
            else ⟨(false, none), s2, [e1, e2]⟩

/-- The deferred `reader.Close()` of `migrateLayer`: registered only when the
reader is not nil, run when the function returns or panics. -/
def deferredClose (reader : Option ReadCloser) : List (Event F) :=
  match reader with
  | some r => [.Close r]
  | none => []

/-- Source function `Trans.migrateLayer`. -/
def Trans.migrateLayer (t : Trans σ F) (digest : Digest) (repository : String)
    (rl : Option F) (s : σ) : Outcome σ F Exit :=
  match t.Dst.HasLayer s repository digest with
  | ((exist, err), s1) =>
    let e1 : Event F := .HasLayer repository digest exist err
    match err with
    | some e => ⟨.returned (some e), s1, [e1]⟩
    | none =>
      if exist then ⟨.returned none, s1, [e1]⟩
      else
        match t.Src.DownloadLayer s1 repository digest with
        | ((reader, err), s2) =>
          let e2 : Event F := .DownloadLayer repository digest reader err
          match err with
          | some e => ⟨.returned (some e), s2, [e1, e2] ++ deferredClose reader⟩
          | none =>
            match rl with
            | some r =>
              match Ratelimit.NewBucketWithRate r
                  (Float64.toInt64 (Float64.mul r Float64.c1_2)) with
              | none => ⟨.panicked, s2, [e1, e2] ++ deferredClose reader⟩
              | some b =>
                let limitReader : Reader F := .limited reader b
                match t.Dst.UploadLayer s2 repository digest limitReader with
                | (err, s3) =>
                  ⟨.returned err, s3,
                    [e1, e2, .UploadLayer repository digest limitReader err]
                      ++ deferredClose reader⟩
            | none =>
              match t.Dst.UploadLayer s2 repository digest (.body reader) with
              | (err, s3) =>
                ⟨.returned err, s3,
                  [e1, e2, .UploadLayer repository digest (.body reader) err]
                    ++ deferredClose reader⟩

/-- Source function `Trans.migrateConfig`. -/
def Trans.migrateConfig (t : Trans σ F) (i : Image) (ratelimit : Option F) (s : σ) :
    Outcome σ F Exit :=
  t.migrateLayer i.Manifest.Config.Digest i.Repository ratelimit s

/-- The `for _, l := range ...` loop of `migrateLayers`, over the layers
still to be visited. -/
def Trans.rangeLayers (t : Trans σ F) (repository : String) (ratelimit : Option F) :
    List Descriptor → σ → Outcome σ F Exit
  | [], s => ⟨.returned none, s, []⟩
  | l :: ls, s =>
    let o := t.migrateLayer l.Digest repository ratelimit s
    match o.ret with
    | .returned (some e) => ⟨.returned (some e), o.world, o.events⟩
    | .panicked => ⟨.panicked, o.world, o.events⟩
    | .returned none =>
      let o2 := Trans.rangeLayers t repository ratelimit ls o.world
      ⟨o2.ret, o2.world, o.events ++ o2.events⟩

/-- Source function `Trans.migrateLayers`. -/
def Trans.migrateLayers (t : Trans σ F) (i : Image) (ratelimit : Option F) (s : σ) :
    Outcome σ F Exit :=
  t.rangeLayers i.Repository ratelimit i.Manifest.Layers s

/-- Source function `Trans.migrateManifest`. -/
def Trans.migrateManifest (t : Trans σ F) (i : Image) (s : σ) :
    Outcome σ F (String × Option Error) :=
  match i.Manifest.Payload with
  | (mediaType, payload, err) =>
    match err with
    | some e => ⟨("", some e), s, []⟩
    | none =>
      match t.Dst.PushManifest s i.Repository i.Reference mediaType payload with
      | ((digest, err), s1) =>
        let e1 : Event F := .PushManifest i.Repository i.Reference mediaType payload digest err
        match err with
        | some e => ⟨("", some e), s1, [e1]⟩
        | none => ⟨(digest, none), s1, [e1]⟩

/-- Source function `Trans.Start`. -/
def Trans.Start (t : Trans σ F) (i : Image) (ratelimit : Option F) (s : σ) :
    Outcome σ F Exit :=
  let o1 := t.migrateConfig i ratelimit s
  match o1.ret with
  | .returned (some e) => ⟨.returned (some e), o1.world, o1.events⟩
  | .panicked => ⟨.panicked, o1.world, o1.events⟩
  | .returned none =>
    let o2 := t.migrateLayers i ratelimit o1.world
    match o2.ret with
    | .returned (some e) => ⟨.returned (some e), o2.world, o1.events ++ o2.events⟩
    | .panicked => ⟨.panicked, o2.world, o1.events ++ o2.events⟩
    | .returned none =>
      let o3 := t.migrateManifest i o2.world
      ⟨.returned o3.ret.2, o3.world,
        o1.events ++ o2.events ++ o3.events ++ [.Println o3.ret.1]⟩

/-- Source function `Trans.Migrate`. -/
def Trans.Migrate (t : Trans σ F) (i : Image) (ratelimit : Option F) (s : σ) :
    Outcome σ F Exit :=
  let c := t.Check i s
  match c.ret.2 with
  | some e => ⟨.returned (some e), c.world, c.events⟩
  | none =>
    if c.ret.1 then
      let o := t.Start i ratelimit c.world
      ⟨o.ret, o.world, c.events ++ o.events⟩
    else ⟨.returned none, c.world, c.events⟩

end Engine

/-! ## `job/job.go` -/

/-- A `tunny.WorkPool` as far as `job.go` uses it: the number of workers it
was created with and whether it is open. -/
structure WorkPool where
  numWorkers : Int
  running : Bool
deriving DecidableEq

/-- Source type `Job`.  `Number` is a Go `int` (64-bit), `RateLimit` a
`*float64`.  The field `ReadyWorker` is never read or written and is left out. -/
structure Job (F : Type) where
  Number : Int
  Pool : Option WorkPool
  RateLimit : Option F
deriving DecidableEq

/-- Go conversion `uint(n)` of an `int` on a 64-bit platform. -/
def uint (n : Int) : Nat := (n % 2 ^ 64).toNat

/-- Source function `init`: the package-level job, sized by `jobNum()`
(`runtime.NumCPU()`, here the argument). -/
def Job.init {F : Type} (numCPUs : Int) : Job F :=
  { Number := numCPUs, Pool := none, RateLimit := none }

section Pool

variable {σ F : Type} [Float64 F] [Ratelimit F]

/-- Source function `Job.rateLimit`. -/
def Job.rateLimit (j : Job F) : Option F :=
  match j.RateLimit with
  | none => none
  | some g =>
    if j.Number = 0 then none
    else some (Float64.div g (Float64.ofUint (uint j.Number)))

/-- Source function `Job.setRateLimit` (called by `SetRateLimit`). -/
def Job.setRateLimit (j : Job F) (ratelimit : F) : Job F :=
  { j with RateLimit := some ratelimit }

/-- Source function `SetRateLimit`: sets the limit of the package-level job,
here passed explicitly. -/
def SetRateLimit {F : Type} (j : Job F) (ratelimie : F) : Job F :=
  j.setRateLimit ratelimie

/-- The closure handed to `tunny.CreatePool` in `Job.Start`:
`func(object) { image := object.(*trans.Image); return t.Migrate(image, j.rateLimit()) }`.
The closure captures the pointer `j`, so `j.rateLimit()` reads the job as it
is when a worker runs the closure; that job is the argument `j` here. -/
def Job.worker (j : Job F) (t : Trans σ F) (image : Image) (s : σ) :
    Outcome σ F Exit :=
  t.Migrate image j.rateLimit s

/-- Source function `Job.Start`: creates and opens a pool of `j.Number`
workers, each running `Job.worker`. -/
def Job.Start (j : Job F) (_t : Trans σ F) : Job F :=
  { j with Pool := some ⟨j.Number, true⟩ }

/-- Source function `Start` of the package: starts the pool of the
package-level job, here passed explicitly. -/
def Start (j : Job F) (t : Trans σ F) : Job F :=
  j.Start t

end Pool

/-! ## A concrete in-memory registry, for the scenarios -/

/-- Exact rational arithmetic as an instance of the float64 interface, used to
evaluate the scenarios below.  On the values used there (1000000 / 4,
2000000 / 4 and the products by 1.2 converted to int64) float64 arithmetic
gives the same results. -/
instance : Float64 ℚ where
  div := fun x y => x / y
  mul := fun x y => x * y
  ofUint := fun n => (n : ℚ)
  toInt64 := fun x => Int.tdiv x.num x.den
  c1_2 := 6 / 5

/-- The rate limiter used in the scenarios below: the constructor panics
when the capacity is not positive and builds the bucket otherwise. -/
instance : Ratelimit ℚ where
  NewBucketWithRate := fun rate capacity =>
    if capacity ≤ 0 then none else some ⟨rate, capacity⟩

/-- The state of the in-memory world: what the destination stores, and which
calls are set to fail. -/
structure Sim where
  manifests : List ((String × String) × String)
  blobs : List (String × Digest)
  nextId : Nat
  hasManifestDown : Bool
  manifestDigestDown : Bool
  badHasLayer : List Digest
  badDownload : List Digest
  badUpload : List Digest
deriving DecidableEq

/-- The digest the in-memory destination assigns to a pushed payload. -/
def Sim.digestOf (payload : String) : String := "sha256:" ++ payload

/-- The in-memory registry. -/
def simRegistry : Registry Sim ℚ where
  HasManifest := fun s r ref =>
    if s.hasManifestDown then ((false, some "HasManifest: unreachable"), s)
    else (((s.manifests.lookup (r, ref)).isSome, none), s)
  ManifestDigest := fun s r ref =>
    if s.manifestDigestDown then (("", some "ManifestDigest: unreachable"), s)
    else
      match s.manifests.lookup (r, ref) with
      | some d => ((d, none), s)
      | none => (("", some "ManifestDigest: not found"), s)
  HasLayer := fun s r d =>
    if d ∈ s.badHasLayer then ((false, some "HasLayer: unreachable"), s)
    else ((decide ((r, d) ∈ s.blobs), none), s)
  DownloadLayer := fun s _ d =>
    if d ∈ s.badDownload then
      ((some ⟨s.nextId⟩, some "DownloadLayer: failed"), { s with nextId := s.nextId + 1 })
    else ((some ⟨s.nextId⟩, none), { s with nextId := s.nextId + 1 })
  UploadLayer := fun s r d _ =>
    if d ∈ s.badUpload then (some "UploadLayer: failed", s)
    else (none, { s with blobs := (r, d) :: s.blobs })
  PushManifest := fun s r ref _ payload =>
    ((Sim.digestOf payload, none),
      { s with manifests := ((r, ref), Sim.digestOf payload) :: s.manifests })

/-- The in-memory engine: source and destination live in the same world. -/
def simTrans : Trans Sim ℚ := ⟨simRegistry, simRegistry⟩

/-- An empty destination where nothing fails. -/
def Sim.empty : Sim := ⟨[], [], 0, false, false, [], [], []⟩

/-- Scenario image: repository app, reference v1, config C, layers L1 and L2. -/
def appV1 : Image :=
  ⟨"app", "v1", "sha256:m1", ⟨"application/json", ⟨"C"⟩, [⟨"L1"⟩, ⟨"L2"⟩], "m1"⟩⟩

/-- A destination that already stores the config blob of `appV1`. -/
def Sim.withConfig : Sim := { Sim.empty with blobs := [("app", "C")] }

/-- An empty destination where the upload of layer L1 fails. -/
def Sim.badL1 : Sim := { Sim.empty with badUpload := ["L1"] }

/-- An empty destination where the download of the config hands back a
stream together with an error. -/
def Sim.badConfigDownload : Sim := { Sim.empty with badDownload := ["C"] }

/-- A destination that holds the manifest of `appV1` under its recorded digest. -/
def Sim.synced : Sim := { Sim.empty with manifests := [(("app", "v1"), "sha256:m1")] }

/-- The image `appV1` with a recorded digest that is not the digest of its
payload. -/
def appStale : Image := { appV1 with Digest := "sha256:old" }

/-- A destination that holds an older manifest for app:v1 and already stores
layer L1 of `appV1`, but neither its config nor layer L2. -/
def Sim.staleL1 : Sim :=
  { Sim.empty with
    manifests := [(("app", "v1"), "sha256:old")],
    blobs := [("app", "L1")] }

/-- The package-level job on a 4-CPU host after `SetRateLimit(1000000)`,
`Start`, `SetRateLimit(2000000)`. -/
def jobReconfigured : Job ℚ :=
  SetRateLimit (Start (SetRateLimit (Job.init 4) 1000000) simTrans) 2000000

/-- The package-level job on a 4-CPU host after `Start`, `SetRateLimit(2000000)`:
no limit was set when the pool was started. -/
def jobLateConfigured : Job ℚ :=
  SetRateLimit (Start (Job.init 4) simTrans) 2000000

/-! ## Projections of the call log -/

/-- A network transfer call, without its answer. -/
inductive Transfer where
  | download (repository : String) (digest : Digest)
  | upload (repository : String) (digest : Digest)
  | push (repository reference mediaType payload : String)
deriving DecidableEq

/-- The transfer call an event stands for, if it is one: `DownloadLayer`,
`UploadLayer` and `PushManifest` are transfers, queries and local calls are not. -/
def Event.transfer? {F : Type} : Event F → Option Transfer
  | .DownloadLayer r d _ _ => some (.download r d)
  | .UploadLayer r d _ _ => some (.upload r d)
  | .PushManifest r ref mt p _ _ => some (.push r ref mt p)
  | _ => none

/-- The transfer calls of a log, in order. -/
def transfers {F : Type} (evs : List (Event F)) : List Transfer :=
  evs.filterMap Event.transfer?

/-- Whether an event is a `PushManifest` call. -/
def Event.isPush {F : Type} : Event F → Bool
  | .PushManifest _ _ _ _ _ _ => true
  | _ => false

/-- Whether an event is a `Close` of some stream. -/
def Event.isClose {F : Type} : Event F → Bool
  | .Close _ => true
  | _ => false

/-- Whether an event is a `DownloadLayer` call. -/
def Event.isDownload {F : Type} : Event F → Bool
  | .DownloadLayer _ _ _ _ => true
  | _ => false

/-- Whether an event is an `UploadLayer` call. -/
def Event.isUpload {F : Type} : Event F → Bool
  | .UploadLayer _ _ _ _ => true
  | _ => false

/-- Every `UploadLayer` call of the log comes right after a successful
`DownloadLayer` of the same digest, which comes right after a `HasLayer`
query for the same repository and digest that answered `(false, nil)`. -/
def UploadsGuarded {F : Type} (evs : List (Event F)) : Prop :=
  ∀ before after r d c e, evs = before ++ Event.UploadLayer r d c e :: after →
    ∃ front rd, before = front ++ [.HasLayer r d false none, .DownloadLayer r d rd none]

/-- Whether the token bucket `migrateLayer` builds for the rate limit `rl`
can be built: there is none to build without a limit, and with a limit `r`
the call `NewBucketWithRate(r, int64(r * 1.2))` must not panic. -/
def bucketBuilt {F : Type} [Float64 F] [Ratelimit F] (rl : Option F) : Bool :=
  match rl with
  | none => true
  | some r =>
    (Ratelimit.NewBucketWithRate r (Float64.toInt64 (Float64.mul r Float64.c1_2))).isSome

/-- The reader `migrateLayer` uploads for the downloaded stream `rd` under the
rate limit `rl`: the stream itself without a limit, and with a limit `r` the
stream wrapped with the bucket `NewBucketWithRate(r, int64(r * 1.2))`. -/
def IsUploadOf {F : Type} [Float64 F] [Ratelimit F] (rl : Option F)
    (rd : Option ReadCloser) (c : Reader F) : Prop :=
  (rl = none ∧ c = .body rd)
  ∨ ∃ r b, rl = some r
      ∧ Ratelimit.NewBucketWithRate r (Float64.toInt64 (Float64.mul r Float64.c1_2)) = some b
      ∧ c = .limited rd b

/-- The five ways one `migrateLayer` call can go: `HasLayer` fails, the
artifact is already there, the download fails, the upload is issued, or the
bucket constructor panics after the download. -/
lemma migrateLayer_shape {σ F : Type} [Float64 F] [Ratelimit F] (t : Trans σ F) (d : Digest)
    (r : String) (rl : Option F) (s : σ) :
    (∃ b e, (t.migrateLayer d r rl s).events = [.HasLayer r d b (some e)]
        ∧ (t.migrateLayer d r rl s).ret = .returned (some e))
    ∨ ((t.migrateLayer d r rl s).events = [.HasLayer r d true none]
        ∧ (t.migrateLayer d r rl s).ret = .returned none)
    ∨ (∃ rd e, (t.migrateLayer d r rl s).events =
          [.HasLayer r d false none, .DownloadLayer r d rd (some e)] ++ deferredClose rd
        ∧ (t.migrateLayer d r rl s).ret = .returned (some e))
    ∨ (∃ rd c err, (t.migrateLayer d r rl s).events =
          [.HasLayer r d false none, .DownloadLayer r d rd none,
            .UploadLayer r d c err] ++ deferredClose rd
        ∧ (t.migrateLayer d r rl s).ret = .returned err
        ∧ IsUploadOf rl rd c)
    ∨ (∃ rd, (t.migrateLayer d r rl s).events =
          [.HasLayer r d false none, .DownloadLayer r d rd none] ++ deferredClose rd
        ∧ (t.migrateLayer d r rl s).ret = .panicked
        ∧ bucketBuilt rl = false) := by
  rcases h1 : t.Dst.HasLayer s r d with ⟨⟨exist, err⟩, s1⟩
  cases err with
  | some e => exact Or.inl ⟨exist, e, by simp [Trans.migrateLayer, h1]⟩
  | none =>
    cases exist with
    | true => exact Or.inr (Or.inl (by simp [Trans.migrateLayer, h1]))
    | false =>
      rcases h2 : t.Src.DownloadLayer s1 r d with ⟨⟨rd, err2⟩, s2⟩
      cases err2 with
      | some e =>
        exact Or.inr (Or.inr (Or.inl ⟨rd, e, by simp [Trans.migrateLayer, h1, h2]⟩))
      | none =>
        cases rl with
        | none =>
          rcases h3 : t.Dst.UploadLayer s2 r d (.body rd) with ⟨err3, s3⟩
          exact Or.inr (Or.inr (Or.inr (Or.inl ⟨rd, .body rd, err3,
            by simp [Trans.migrateLayer, h1, h2, h3],
            by simp [Trans.migrateLayer, h1, h2, h3],
            Or.inl ⟨rfl, rfl⟩⟩)))
        | some g =>
          cases hb : Ratelimit.NewBucketWithRate g
              (Float64.toInt64 (Float64.mul g Float64.c1_2)) with
          | none =>
            exact Or.inr (Or.inr (Or.inr (Or.inr ⟨rd,
              by simp [Trans.migrateLayer, h1, h2, hb],
              by simp [Trans.migrateLayer, h1, h2, hb],
              by simp [bucketBuilt, hb]⟩)))
          | some b =>
            rcases h3 : t.Dst.UploadLayer s2 r d (.limited rd b) with ⟨err3, s3⟩
            exact Or.inr (Or.inr (Or.inr (Or.inl ⟨rd, .limited rd b, err3,
              by simp [Trans.migrateLayer, h1, h2, hb, h3],
              by simp [Trans.migrateLayer, h1, h2, hb, h3],
              Or.inr ⟨g, b, rfl, hb, rfl⟩⟩)))

/-- With a rate limit of 0 the bucket constructor of the scenarios panics: the
copy of `appV1` over a stale manifest stops after the download of the config,
the stream is closed, nothing is uploaded and no manifest is pushed. -/
lemma Migrate_zero_limit_panics :
    (simTrans.Migrate appV1 (some 0) Sim.staleL1).ret = .panicked
    ∧ (simTrans.Migrate appV1 (some 0) Sim.staleL1).events =
        [.HasManifest "app" "v1" true none, .ManifestDigest "app" "v1" "sha256:old" none,
         .HasLayer "app" "C" false none, .DownloadLayer "app" "C" (some ⟨0⟩) none,
         .Close ⟨0⟩] := by
  decide!

/-- The deferred close is never a `PushManifest`. -/
lemma deferredClose_isPush {F : Type} (rd : Option ReadCloser) :
    ∀ e ∈ (deferredClose rd : List (Event F)), e.isPush = false := by
  cases rd <;> simp [deferredClose, Event.isPush]

/-- One transfer step never pushes a manifest. -/
lemma migrateLayer_no_push {σ F : Type} [Float64 F] [Ratelimit F] (t : Trans σ F) (d : Digest)
    (r : String) (rl : Option F) (s : σ) :
    ∀ e ∈ (t.migrateLayer d r rl s).events, e.isPush = false := by
  rcases migrateLayer_shape t d r rl s with
    ⟨b, e, h, _⟩ | ⟨h, _⟩ | ⟨rd, e, h, _⟩ | ⟨rd, c, err, h, _⟩ | ⟨rd, h, _⟩
  · rw [h]; simp [Event.isPush]
  · rw [h]; simp [Event.isPush]
  · rw [h]; intro x hx
    rcases List.mem_append.mp hx with hx | hx
    · simp at hx; rcases hx with rfl | rfl <;> rfl
    · exact deferredClose_isPush rd x hx
  · rw [h]; intro x hx
    rcases List.mem_append.mp hx with hx | hx
    · simp at hx; rcases hx with rfl | rfl | rfl <;> rfl
    · exact deferredClose_isPush rd x hx
  · rw [h]; intro x hx
    rcases List.mem_append.mp hx with hx | hx
    · simp at hx; rcases hx with rfl | rfl <;> rfl
    · exact deferredClose_isPush rd x hx

/-- The layer loop goes on to the next layer after a step that returned nil. -/
lemma rangeLayers_cons_ok {σ F : Type} [Float64 F] [Ratelimit F] (t : Trans σ F) (r : String)
    (rl : Option F) (l : Descriptor) (ls : List Descriptor) (s : σ)
    (h : (t.migrateLayer l.Digest r rl s).ret = .returned none) :
    t.rangeLayers r rl (l :: ls) s =
      ⟨(t.rangeLayers r rl ls (t.migrateLayer l.Digest r rl s).world).ret,
        (t.rangeLayers r rl ls (t.migrateLayer l.Digest r rl s).world).world,
        (t.migrateLayer l.Digest r rl s).events
          ++ (t.rangeLayers r rl ls (t.migrateLayer l.Digest r rl s).world).events⟩ := by
  rw [Trans.rangeLayers]
  simp only [h]

/-- The layer loop ends with a step that returned an error or panicked. -/
lemma rangeLayers_cons_stop {σ F : Type} [Float64 F] [Ratelimit F] (t : Trans σ F) (r : String)
    (rl : Option F) (l : Descriptor) (ls : List Descriptor) (s : σ)
    (h : (t.migrateLayer l.Digest r rl s).ret ≠ .returned none) :
    t.rangeLayers r rl (l :: ls) s =
      ⟨(t.migrateLayer l.Digest r rl s).ret, (t.migrateLayer l.Digest r rl s).world,
        (t.migrateLayer l.Digest r rl s).events⟩ := by
  rw [Trans.rangeLayers]
  cases hr : (t.migrateLayer l.Digest r rl s).ret with
  | panicked => simp only [hr]
  | returned err =>
    cases err with
    | none => exact absurd hr h
    | some e => simp only [hr]

/-- The layer loop never pushes a manifest. -/
lemma rangeLayers_no_push {σ F : Type} [Float64 F] [Ratelimit F] (t : Trans σ F) (r : String)
    (rl : Option F) (ls : List Descriptor) :
    ∀ s, ∀ e ∈ (t.rangeLayers r rl ls s).events, e.isPush = false := by
  induction ls with
  | nil => intro s e he; simp [Trans.rangeLayers] at he
  | cons l ls ih =>
    intro s e he
    by_cases hr : (t.migrateLayer l.Digest r rl s).ret = .returned none
    · rw [rangeLayers_cons_ok t r rl l ls s hr] at he
      rcases List.mem_append.mp he with h | h
      · exact migrateLayer_no_push t l.Digest r rl s e h
      · exact ih _ e h
    · rw [rangeLayers_cons_stop t r rl l ls s hr] at he
      exact migrateLayer_no_push t l.Digest r rl s e he

/-- The layer loop over `pre ++ l :: post` when the layers of `pre` succeed and
the step of `l` does not return nil: the loop stops at `l`. -/
lemma rangeLayers_stops {σ F : Type} [Float64 F] [Ratelimit F] (t : Trans σ F) (r : String)
    (rl : Option F) (pre : List Descriptor) (l : Descriptor) (post : List Descriptor) :
    ∀ s, (t.rangeLayers r rl pre s).ret = .returned none →
      (t.migrateLayer l.Digest r rl (t.rangeLayers r rl pre s).world).ret ≠ .returned none →
      t.rangeLayers r rl (pre ++ l :: post) s =
        ⟨(t.migrateLayer l.Digest r rl (t.rangeLayers r rl pre s).world).ret,
          (t.migrateLayer l.Digest r rl (t.rangeLayers r rl pre s).world).world,
          (t.rangeLayers r rl pre s).events
            ++ (t.migrateLayer l.Digest r rl (t.rangeLayers r rl pre s).world).events⟩ := by
  induction pre with
  | nil =>
    intro s _ he
    have hn : t.rangeLayers r rl [] s = ⟨.returned none, s, []⟩ := rfl
    simp only [hn, List.nil_append] at he ⊢
    rw [rangeLayers_cons_stop t r rl l post s he]
  | cons p ps ih =>
    intro s hpre he
    by_cases hp : (t.migrateLayer p.Digest r rl s).ret = .returned none
    · rw [rangeLayers_cons_ok t r rl p ps s hp] at hpre he
      simp only at hpre he
      rw [List.cons_append, rangeLayers_cons_ok t r rl p (ps ++ l :: post) s hp,
        rangeLayers_cons_ok t r rl p ps s hp, ih _ hpre he]
      simp
    · rw [rangeLayers_cons_stop t r rl p ps s hp] at hpre
      exact absurd hpre hp

/-- The log and result of `migrateManifest`: one `PushManifest` call. -/
lemma migrateManifest_shape {σ F : Type} (t : Trans σ F) (i : Image) (s : σ) :
    ∃ d err, (t.migrateManifest i s).events =
        [.PushManifest i.Repository i.Reference i.Manifest.MediaType i.Manifest.canonical d err]
      ∧ (t.migrateManifest i s).ret.2 = err
      ∧ (err = none → (t.migrateManifest i s).ret.1 = d) := by
  rcases h : t.Dst.PushManifest s i.Repository i.Reference i.Manifest.MediaType
    i.Manifest.canonical with ⟨⟨d, err⟩, s1⟩
  refine ⟨d, err, ?_⟩
  cases err <;> simp [Trans.migrateManifest, Manifest.Payload, h]

/-- The three ways `Start` can end: the config step did not return nil, the
layer loop did not return nil, or the manifest was pushed and its digest
logged. -/
lemma Start_shape {σ F : Type} [Float64 F] [Ratelimit F] (t : Trans σ F) (i : Image)
    (rl : Option F) (s : σ) :
    ((t.migrateConfig i rl s).ret ≠ .returned none
        ∧ t.Start i rl s = ⟨(t.migrateConfig i rl s).ret, (t.migrateConfig i rl s).world,
            (t.migrateConfig i rl s).events⟩)
    ∨ ((t.migrateConfig i rl s).ret = .returned none
        ∧ (t.migrateLayers i rl (t.migrateConfig i rl s).world).ret ≠ .returned none
        ∧ t.Start i rl s = ⟨(t.migrateLayers i rl (t.migrateConfig i rl s).world).ret,
            (t.migrateLayers i rl (t.migrateConfig i rl s).world).world,
            (t.migrateConfig i rl s).events
              ++ (t.migrateLayers i rl (t.migrateConfig i rl s).world).events⟩)
    ∨ (∃ d err, (t.migrateConfig i rl s).ret = .returned none
        ∧ (t.migrateLayers i rl (t.migrateConfig i rl s).world).ret = .returned none
        ∧ (t.Start i rl s).ret = .returned err
        ∧ (t.Start i rl s).events =
            (t.migrateConfig i rl s).events
              ++ (t.migrateLayers i rl (t.migrateConfig i rl s).world).events
              ++ [.PushManifest i.Repository i.Reference i.Manifest.MediaType
                    i.Manifest.canonical d err,
                  .Println (t.migrateManifest i
                    (t.migrateLayers i rl (t.migrateConfig i rl s).world).world).ret.1]
        ∧ (err = none → (t.migrateManifest i
            (t.migrateLayers i rl (t.migrateConfig i rl s).world).world).ret.1 = d)) := by
  cases h1 : (t.migrateConfig i rl s).ret with
  | panicked => exact Or.inl ⟨by simp, by simp [Trans.Start, h1]⟩
  | returned e1 =>
    cases e1 with
    | some e => exact Or.inl ⟨by simp, by simp [Trans.Start, h1]⟩
    | none =>
      cases h2 : (t.migrateLayers i rl (t.migrateConfig i rl s).world).ret with
      | panicked => exact Or.inr (Or.inl ⟨rfl, by simp, by simp [Trans.Start, h1, h2]⟩)
      | returned e2 =>
        cases e2 with
        | some e => exact Or.inr (Or.inl ⟨rfl, by simp, by simp [Trans.Start, h1, h2]⟩)
        | none =>
          obtain ⟨d, err, he, hr, hd⟩ := migrateManifest_shape t i
            (t.migrateLayers i rl (t.migrateConfig i rl s).world).world
          refine Or.inr (Or.inr ⟨d, err, rfl, rfl, ?_, ?_, hd⟩)
          · simp [Trans.Start, h1, h2, hr]
          · simp [Trans.Start, h1, h2, he]

/-- The four ways `Check` can end. -/
lemma Check_shape {σ F : Type} (t : Trans σ F) (i : Image) (s : σ) :
    (∃ b e, (t.Check i s).events = [.HasManifest i.Repository i.Reference b (some e)]
        ∧ (t.Check i s).ret = (false, some e))
    ∨ ((t.Check i s).events = [.HasManifest i.Repository i.Reference false none]
        ∧ (t.Check i s).ret = (true, none))
    ∨ (∃ d e, (t.Check i s).events =
          [.HasManifest i.Repository i.Reference true none,
           .ManifestDigest i.Repository i.Reference d (some e)]
        ∧ (t.Check i s).ret = (false, some e))
    ∨ (∃ d, (t.Check i s).events =
          [.HasManifest i.Repository i.Reference true none,
           .ManifestDigest i.Repository i.Reference d none]
        ∧ (t.Check i s).ret = (decide (i.Digest ≠ d), none)) := by
  rcases h1 : t.Dst.HasManifest s i.Repository i.Reference with ⟨⟨exist, err⟩, s1⟩
  cases err with
  | some e => exact Or.inl ⟨exist, e, by simp [Trans.Check, h1]⟩
  | none =>
    cases exist with
    | false => exact Or.inr (Or.inl (by simp [Trans.Check, h1]))
    | true =>
      rcases h2 : t.Dst.ManifestDigest s1 i.Repository i.Reference with ⟨⟨d, err2⟩, s2⟩
      cases err2 with
      | some e => exact Or.inr (Or.inr (Or.inl ⟨d, e, by simp [Trans.Check, h1, h2]⟩))
      | none =>
        refine Or.inr (Or.inr (Or.inr ⟨d, ?_⟩))
        by_cases hd : i.Digest = d <;> simp [Trans.Check, h1, h2, hd]

/-- `Migrate` when `Check` fails. -/
lemma Migrate_of_check_err {σ F : Type} [Float64 F] [Ratelimit F] (t : Trans σ F) (i : Image)
    (rl : Option F) (s : σ) (b : Bool) (e : Error) (h : (t.Check i s).ret = (b, some e)) :
    t.Migrate i rl s = ⟨.returned (some e), (t.Check i s).world, (t.Check i s).events⟩ := by
  simp [Trans.Migrate, h]

/-- `Migrate` when `Check` asks for a copy. -/
lemma Migrate_of_check_copy {σ F : Type} [Float64 F] [Ratelimit F] (t : Trans σ F) (i : Image)
    (rl : Option F) (s : σ) (h : (t.Check i s).ret = (true, none)) :
    t.Migrate i rl s = ⟨(t.Start i rl (t.Check i s).world).ret,
      (t.Start i rl (t.Check i s).world).world,
      (t.Check i s).events ++ (t.Start i rl (t.Check i s).world).events⟩ := by
  simp [Trans.Migrate, h]

/-- `Migrate` when `Check` finds the image in place. -/
lemma Migrate_of_check_synced {σ F : Type} [Float64 F] [Ratelimit F] (t : Trans σ F)
    (i : Image) (rl : Option F) (s : σ) (h : (t.Check i s).ret = (false, none)) :
    t.Migrate i rl s = ⟨.returned none, (t.Check i s).world, (t.Check i s).events⟩ := by
  simp [Trans.Migrate, h]

/-- A log without uploads is guarded. -/
lemma UploadsGuarded_of_no_upload {F : Type} (evs : List (Event F))
    (h : ∀ e ∈ evs, e.isUpload = false) : UploadsGuarded evs := by
  intro before after r d c e heq
  have := h (.UploadLayer r d c e) (by rw [heq]; simp)
  simp [Event.isUpload] at this

/-- Guardedness is kept by concatenation. -/
lemma UploadsGuarded_append {F : Type} (a b : List (Event F))
    (ha : UploadsGuarded a) (hb : UploadsGuarded b) : UploadsGuarded (a ++ b) := by
  intro before after r d c e heq
  rcases List.append_eq_append_iff.mp heq with ⟨a', h1, h2⟩ | ⟨c', h1, h2⟩
  · obtain ⟨front, rd, hf⟩ := hb a' after r d c e h2
    exact ⟨a ++ front, rd, by rw [h1, hf, List.append_assoc]⟩
  · cases c' with
    | nil =>
      simp only [List.nil_append] at h2
      obtain ⟨front, rd, hf⟩ := hb [] after r d c e (by simpa using h2.symm)
      simp at hf
    | cons x xs =>
      simp only [List.cons_append, List.cons.injEq] at h2
      obtain ⟨rfl, _⟩ := h2
      exact ha before xs r d c e h1

/-- The log of one transfer step is guarded. -/
lemma migrateLayer_guarded {σ F : Type} [Float64 F] [Ratelimit F] (t : Trans σ F) (d : Digest)
    (r : String) (rl : Option F) (s : σ) : UploadsGuarded (t.migrateLayer d r rl s).events := by
  rcases migrateLayer_shape t d r rl s with
    ⟨b, e, h, _⟩ | ⟨h, _⟩ | ⟨rd, e, h, _⟩ | ⟨rd, c, err, h, _, _⟩ | ⟨rd, h, _⟩
  · rw [h]; exact UploadsGuarded_of_no_upload _ (by simp [Event.isUpload])
  · rw [h]; exact UploadsGuarded_of_no_upload _ (by simp [Event.isUpload])
  · rw [h]; apply UploadsGuarded_of_no_upload
    cases rd <;> simp [deferredClose, Event.isUpload]
  · rw [h]
    intro before after r' d' c' e' heq
    refine ⟨[], rd, ?_⟩
    cases rd with
    | none =>
      rcases before with _ | ⟨b1, _ | ⟨b2, _ | ⟨b3, _ | ⟨b4, bs⟩⟩⟩⟩ <;>
        simp [deferredClose] at heq ⊢
      obtain ⟨rfl, rfl, ⟨h3, h4, _⟩, _⟩ := heq
      subst h3 h4
      exact ⟨rfl, rfl⟩
    | some x =>
      rcases before with _ | ⟨b1, _ | ⟨b2, _ | ⟨b3, _ | ⟨b4, _ | ⟨b5, bs⟩⟩⟩⟩⟩ <;>
        simp [deferredClose] at heq ⊢
      obtain ⟨rfl, rfl, ⟨h3, h4, _⟩, _⟩ := heq
      subst h3 h4
      exact ⟨rfl, rfl⟩
  · rw [h]; apply UploadsGuarded_of_no_upload
    cases rd <;> simp [deferredClose, Event.isUpload]

/-- The log of the layer loop is guarded. -/
lemma rangeLayers_guarded {σ F : Type} [Float64 F] [Ratelimit F] (t : Trans σ F) (r : String)
    (rl : Option F) (ls : List Descriptor) :
    ∀ s, UploadsGuarded (t.rangeLayers r rl ls s).events := by
  induction ls with
  | nil => intro s; exact UploadsGuarded_of_no_upload _ (by simp [Trans.rangeLayers])
  | cons l ls ih =>
    intro s
    by_cases hr : (t.migrateLayer l.Digest r rl s).ret = .returned none
    · rw [rangeLayers_cons_ok t r rl l ls s hr]
      exact UploadsGuarded_append _ _ (migrateLayer_guarded t l.Digest r rl s) (ih _)
    · rw [rangeLayers_cons_stop t r rl l ls s hr]
      exact migrateLayer_guarded t l.Digest r rl s

/-- The log of `Start` is guarded. -/
lemma Start_guarded {σ F : Type} [Float64 F] [Ratelimit F] (t : Trans σ F) (i : Image)
    (rl : Option F) (s : σ) : UploadsGuarded (t.Start i rl s).events := by
  rcases Start_shape t i rl s with ⟨_, hS⟩ | ⟨_, _, hS⟩ | ⟨d, err, _, _, _, hev, _⟩
  · rw [hS]; exact migrateLayer_guarded t _ _ _ _
  · rw [hS]
    exact UploadsGuarded_append _ _ (migrateLayer_guarded t _ _ _ _) (rangeLayers_guarded t _ _ _ _)
  · rw [hev]
    refine UploadsGuarded_append _ _ (UploadsGuarded_append _ _ (migrateLayer_guarded t _ _ _ _)
      (rangeLayers_guarded t _ _ _ _)) (UploadsGuarded_of_no_upload _ (by simp [Event.isUpload]))

/-- The log of `Check` holds no upload. -/
lemma Check_no_upload {σ F : Type} (t : Trans σ F) (i : Image) (s : σ) :
    ∀ e ∈ (t.Check i s).events, e.isUpload = false := by
  rcases Check_shape t i s with ⟨b, e, he, _⟩ | ⟨he, _⟩ | ⟨d, e, he, _⟩ | ⟨d, he, _⟩ <;>
    rw [he] <;> simp [Event.isUpload]

/-- The log of `Migrate` is that of `Check`, followed by that of `Start` when
`Check` answered `(true, nil)`. -/
lemma Migrate_events {σ F : Type} [Float64 F] [Ratelimit F] (t : Trans σ F) (i : Image)
    (rl : Option F) (s : σ) :
    (t.Migrate i rl s).events = (t.Check i s).events
    ∨ ((t.Check i s).ret = (true, none)
        ∧ (t.Migrate i rl s).ret = (t.Start i rl (t.Check i s).world).ret
        ∧ (t.Migrate i rl s).events =
            (t.Check i s).events ++ (t.Start i rl (t.Check i s).world).events) := by
  rcases hc : (t.Check i s).ret with ⟨b, err⟩
  cases err with
  | some e => left; rw [Migrate_of_check_err t i rl s b e hc]
  | none =>
    cases b with
    | false => left; rw [Migrate_of_check_synced t i rl s hc]
    | true => right; rw [Migrate_of_check_copy t i rl s hc]; exact ⟨rfl, rfl, rfl⟩

/-- The conversion `uint(n)` of a positive Go int is the number itself. -/
lemma uint_of_pos (n : Int) (hpos : 0 < n) (hlt : n < 2 ^ 63) : uint n = n.toNat := by
  unfold uint
  rw [Int.emod_eq_of_lt (by omega) (by omega)]

/-- The share computed by `rateLimit` from a set limit and a positive pool size. -/
lemma rateLimit_of_set {F : Type} [Float64 F] (j : Job F) (g : F) (hg : j.RateLimit = some g)
    (hpos : 0 < j.Number) (hlt : j.Number < 2 ^ 63) :
    j.rateLimit = some (Float64.div g (Float64.ofUint j.Number.toNat)) := by
  have hne : j.Number ≠ 0 := by omega
  simp [Job.rateLimit, hg, hne, uint_of_pos j.Number hpos hlt]

/-! ## Theorems -/

section Theorems

/-- C1: `Check` is decided by the destination's answers alone.  A failing
`HasManifest` gives that error with `needsCopy = false`; an answer `false`
gives `(true, nil)` and `ManifestDigest` is not queried; an answer `true`
followed by a failing `ManifestDigest` gives that error with `false`; an
answer `true` followed by digest `d` gives `(true, nil)` when `d` differs from
`image.Digest` and `(false, nil)` when it is equal. -/
theorem Check_decided_by_destination {σ F : Type} (t : Trans σ F) (i : Image) (s : σ) :
    (∀ b e s1, t.Dst.HasManifest s i.Repository i.Reference = ((b, some e), s1) →
      t.Check i s = ⟨(false, some e), s1, [.HasManifest i.Repository i.Reference b (some e)]⟩)
    ∧ (∀ s1, t.Dst.HasManifest s i.Repository i.Reference = ((false, none), s1) →
      t.Check i s = ⟨(true, none), s1, [.HasManifest i.Repository i.Reference false none]⟩)
    ∧ (∀ s1 d e s2, t.Dst.HasManifest s i.Repository i.Reference = ((true, none), s1) →
      t.Dst.ManifestDigest s1 i.Repository i.Reference = ((d, some e), s2) →
      t.Check i s = ⟨(false, some e), s2,
        [.HasManifest i.Repository i.Reference true none,
         .ManifestDigest i.Repository i.Reference d (some e)]⟩)
    ∧ (∀ s1 d s2, t.Dst.HasManifest s i.Repository i.Reference = ((true, none), s1) →
      t.Dst.ManifestDigest s1 i.Repository i.Reference = ((d, none), s2) →
      (d ≠ i.Digest → (t.Check i s).ret = (true, none))
      ∧ (d = i.Digest → (t.Check i s).ret = (false, none))
      ∧ (t.Check i s).world = s2
      ∧ (t.Check i s).events =
          [.HasManifest i.Repository i.Reference true none,
           .ManifestDigest i.Repository i.Reference d none]) := by
  refine ⟨?_, ?_, ?_, ?_⟩
  · intro b e s1 h
    simp [Trans.Check, h]
  · intro s1 h
    simp [Trans.Check, h]
  · intro s1 d e s2 h1 h2
    simp [Trans.Check, h1, h2]
  · intro s1 d s2 h1 h2
    refine ⟨?_, ?_, ?_, ?_⟩
    · intro hd
      have hd2 : ¬ i.Digest = d := fun h => hd h.symm
      simp [Trans.Check, h1, h2, hd2]
    · intro hd
      simp [Trans.Check, h1, h2, hd]
    · by_cases hd : i.Digest = d <;> simp [Trans.Check, h1, h2, hd]
    · by_cases hd : i.Digest = d <;> simp [Trans.Check, h1, h2, hd]

/-- C2: when the destination has a manifest for the image whose digest equals
`image.Digest`, `Migrate` returns nil for every rate limit, the only calls it
issues are the two queries `HasManifest` and `ManifestDigest` (no
`DownloadLayer`, `UploadLayer` or `PushManifest`), and the world is the one
those two queries left: unchanged when they are read-only. -/
theorem Migrate_synced_is_noop {σ F : Type} [Float64 F] [Ratelimit F] (t : Trans σ F)
    (i : Image) (rl : Option F) (s s1 s2 : σ)
    (hM : t.Dst.HasManifest s i.Repository i.Reference = ((true, none), s1))
    (hD : t.Dst.ManifestDigest s1 i.Repository i.Reference = ((i.Digest, none), s2)) :
    (t.Migrate i rl s).ret = .returned none
    ∧ (t.Migrate i rl s).events =
        [.HasManifest i.Repository i.Reference true none,
         .ManifestDigest i.Repository i.Reference i.Digest none]
    ∧ transfers (t.Migrate i rl s).events = []
    ∧ (t.Migrate i rl s).world = s2
    ∧ (s1 = s → s2 = s1 → (t.Migrate i rl s).world = s) := by
  have hC : t.Check i s = ⟨(false, none), s2,
      [.HasManifest i.Repository i.Reference true none,
       .ManifestDigest i.Repository i.Reference i.Digest none]⟩ := by
    simp [Trans.Check, hM, hD]
  refine ⟨?_, ?_, ?_, ?_, ?_⟩
  · simp [Trans.Migrate, hC]
  · simp [Trans.Migrate, hC]
  · simp [Trans.Migrate, hC, transfers, Event.transfer?]
  · simp [Trans.Migrate, hC]
  · intro h1 h2
    have hw : (t.Migrate i rl s).world = s2 := by simp [Trans.Migrate, hC]
    rw [hw, h2, h1]

/-- C4: an artifact the destination already has is never uploaded.  When
`HasLayer` answers true, `migrateLayer` returns nil having issued that query
only (no `DownloadLayer`, no `UploadLayer`), for every rate limit; hence in
every run of `Start` and of `Migrate` each `UploadLayer` call directly follows
a `HasLayer` query for the same artifact that answered false. -/
theorem migrateLayer_skips_present {σ F : Type} [Float64 F] [Ratelimit F]
    (t : Trans σ F) (i : Image)
    (digest : Digest) (repository : String) (rl : Option F) (s : σ) :
    (∀ s1, t.Dst.HasLayer s repository digest = ((true, none), s1) →
      t.migrateLayer digest repository rl s =
        ⟨.returned none, s1, [.HasLayer repository digest true none]⟩)
    ∧ UploadsGuarded (t.Start i rl s).events
    ∧ UploadsGuarded (t.Migrate i rl s).events := by
  refine ⟨?_, Start_guarded t i rl s, ?_⟩
  · intro s1 h
    simp [Trans.migrateLayer, h]
  · rcases Migrate_events t i rl s with h | ⟨_, _, h⟩
    · rw [h]; exact UploadsGuarded_of_no_upload _ (Check_no_upload t i s)
    · rw [h]
      exact UploadsGuarded_append _ _ (UploadsGuarded_of_no_upload _ (Check_no_upload t i s))
        (Start_guarded t i rl _)

/-- C1 witness: the in-memory destination, empty (absent manifest) and holding
the manifest under the recorded digest (match). -/
theorem Check_decided_by_destination_witness :
    simTrans.Check appV1 Sim.empty =
        ⟨(true, none), Sim.empty, [.HasManifest "app" "v1" false none]⟩
    ∧ (simTrans.Check appV1 Sim.synced).ret = (false, none) :=
  ⟨(Check_decided_by_destination simTrans appV1 Sim.empty).2.1 Sim.empty (by decide),
   ((Check_decided_by_destination simTrans appV1 Sim.synced).2.2.2 Sim.synced "sha256:m1"
      Sim.synced (by decide) (by decide)).2.1 (by decide)⟩

/-- C2 witness: the image is in place under its recorded digest and a rate
limit is set. -/
theorem Migrate_synced_is_noop_witness :
    (simTrans.Migrate appV1 (some 1000000) Sim.synced).ret = .returned none
    ∧ transfers (simTrans.Migrate appV1 (some 1000000) Sim.synced).events = []
    ∧ (simTrans.Migrate appV1 (some 1000000) Sim.synced).world = Sim.synced :=
  have h := Migrate_synced_is_noop simTrans appV1 (some 1000000) Sim.synced Sim.synced
    Sim.synced (by decide) (by decide)
  ⟨h.1, h.2.2.1, h.2.2.2.1⟩

/-- C4 witness: the destination already stores the config blob. -/
theorem migrateLayer_skips_present_witness :
    simTrans.migrateLayer "C" "app" (some 1000000) Sim.withConfig =
      ⟨.returned none, Sim.withConfig, [.HasLayer "app" "C" true none]⟩ :=
  (migrateLayer_skips_present simTrans appV1 "C" "app" (some 1000000) Sim.withConfig).1
    Sim.withConfig (by decide)

/-- C5: `Start` is fail-fast.  If the config step fails, `Start` returns that
step's error, world and log.  If the config step and the layers `done`
succeed and the next layer `l` fails with `e`, `Start` returns `e` itself, its
log is the log of those steps and nothing more (no call for a later layer),
and the world is the one the failing step left (nothing is undone).  In both
cases no `PushManifest` is issued.  `Migrate` returns what `Start` returns. -/
theorem Start_fail_fast {σ F : Type} [Float64 F] [Ratelimit F]
    (t : Trans σ F) (i : Image)
    (rl : Option F) (s : σ) :
    (∀ e, (t.migrateConfig i rl s).ret = .returned (some e) →
      t.Start i rl s =
        ⟨.returned (some e), (t.migrateConfig i rl s).world, (t.migrateConfig i rl s).events⟩
      ∧ ∀ ev ∈ (t.Start i rl s).events, ev.isPush = false)
    ∧ (∀ done l rest e oc od ol, i.Manifest.Layers = done ++ l :: rest →
      t.migrateConfig i rl s = oc → oc.ret = .returned none →
      t.rangeLayers i.Repository rl done oc.world = od → od.ret = .returned none →
      t.migrateLayer l.Digest i.Repository rl od.world = ol → ol.ret = .returned (some e) →
      t.Start i rl s = ⟨.returned (some e), ol.world, oc.events ++ (od.events ++ ol.events)⟩
      ∧ ∀ ev ∈ (t.Start i rl s).events, ev.isPush = false)
    ∧ (∀ s0, (t.Check i s0).ret = (true, none) → (t.Check i s0).world = s →
      t.Migrate i rl s0 =
        ⟨(t.Start i rl s).ret, (t.Start i rl s).world,
          (t.Check i s0).events ++ (t.Start i rl s).events⟩) := by
  refine ⟨?_, ?_, ?_⟩
  · intro e he
    have hS : t.Start i rl s =
        ⟨.returned (some e), (t.migrateConfig i rl s).world, (t.migrateConfig i rl s).events⟩ := by
      simp [Trans.Start, he]
    refine ⟨hS, ?_⟩
    rw [hS]
    exact migrateLayer_no_push t _ _ _ _
  · intro done l rest e oc od ol hl hoc hocr hod hodr hol holr
    subst hoc hod hol
    have hloop := rangeLayers_stops t i.Repository rl done l rest
      (t.migrateConfig i rl s).world hodr (by rw [holr]; simp)
    rw [holr] at hloop
    have hS : t.Start i rl s = ⟨.returned (some e),
        (t.migrateLayer l.Digest i.Repository rl
          (t.rangeLayers i.Repository rl done (t.migrateConfig i rl s).world).world).world,
        (t.migrateConfig i rl s).events ++
          ((t.rangeLayers i.Repository rl done (t.migrateConfig i rl s).world).events ++
            (t.migrateLayer l.Digest i.Repository rl
              (t.rangeLayers i.Repository rl done
                (t.migrateConfig i rl s).world).world).events)⟩ := by
      simp [Trans.Start, hocr, Trans.migrateLayers, hl, hloop]
    refine ⟨hS, ?_⟩
    rw [hS]
    intro ev hev
    rcases List.mem_append.mp hev with h | h
    · exact migrateLayer_no_push t _ _ _ _ ev h
    · rcases List.mem_append.mp h with h | h
      · exact rangeLayers_no_push t _ _ _ _ ev h
      · exact migrateLayer_no_push t _ _ _ _ ev h
  · intro s0 hc hw
    rw [Migrate_of_check_copy t i rl s0 hc, hw]

/-- C5 witness: the upload of L1 fails; the config stays at the destination,
L2 is never touched and no manifest is pushed. -/
theorem Start_fail_fast_witness :
    simTrans.Start appV1 none Sim.badL1 =
      ⟨.returned (some "UploadLayer: failed"), { Sim.badL1 with blobs := [("app", "C")], nextId := 2 },
        [.HasLayer "app" "C" false none, .DownloadLayer "app" "C" (some ⟨0⟩) none,
         .UploadLayer "app" "C" (.body (some ⟨0⟩)) none, .Close ⟨0⟩]
        ++ ([] ++
        [.HasLayer "app" "L1" false none, .DownloadLayer "app" "L1" (some ⟨1⟩) none,
         .UploadLayer "app" "L1" (.body (some ⟨1⟩)) (some "UploadLayer: failed"),
         .Close ⟨1⟩])⟩ :=
  ((Start_fail_fast simTrans appV1 none Sim.badL1).2.1 [] ⟨"L1"⟩ [⟨"L2"⟩]
    "UploadLayer: failed" _ _ _ rfl rfl rfl rfl rfl rfl rfl).1

/-- C6: the per-worker share.  With a global limit `g` set and a pool size
`N > 0` (a Go int), `rateLimit` is set and is the float64 quotient
`g / float64(N)`; with no global limit, or with `N = 0`, it is absent. -/
theorem rateLimit_share {F : Type} [Float64 F] (j : Job F) :
    (∀ g, j.RateLimit = some g → 0 < j.Number → j.Number < 2 ^ 63 →
      j.rateLimit = some (Float64.div g (Float64.ofUint j.Number.toNat)))
    ∧ (j.RateLimit = none → j.rateLimit = none)
    ∧ (j.Number = 0 → j.rateLimit = none) := by
  refine ⟨?_, ?_, ?_⟩
  · intro g hg hpos hlt
    exact rateLimit_of_set j g hg hpos hlt
  · intro hg
    simp [Job.rateLimit, hg]
  · intro hn
    cases hg : j.RateLimit <;> simp [Job.rateLimit, hg, hn]

/-- C6 witness: a global limit of 1,000,000 over 4 workers gives 250,000. -/
theorem rateLimit_share_witness :
    (⟨4, none, some 1000000⟩ : Job ℚ).rateLimit = some 250000 := by
  rw [(rateLimit_share (⟨4, none, some 1000000⟩ : Job ℚ)).1 1000000 rfl (by decide) (by decide)]
  have h4 : Int.toNat 4 = 4 := rfl
  norm_num [Float64.div, Float64.ofUint, h4]

/-- C10: the source stream is closed exactly once.  When `HasLayer` fails or
answers true, `migrateLayer` issues no `DownloadLayer`, so no stream is
opened.  When `DownloadLayer` hands back a stream `rd`, whether or not it
also reports an error, whatever `UploadLayer` answers and with or without a
rate limit, the log holds exactly one `Close`, it is the close of `rd`, and it
is the last action before `migrateLayer` returns (or unwinds, when the bucket
constructor panics). -/
theorem migrateLayer_closes_stream {σ F : Type} [Float64 F] [Ratelimit F]
    (t : Trans σ F)
    (digest : Digest) (repository : String) (rl : Option F) (s : σ) :
    (∀ b e s1, t.Dst.HasLayer s repository digest = ((b, some e), s1) →
      (t.migrateLayer digest repository rl s).events = [.HasLayer repository digest b (some e)])
    ∧ (∀ s1, t.Dst.HasLayer s repository digest = ((true, none), s1) →
      (t.migrateLayer digest repository rl s).events = [.HasLayer repository digest true none])
    ∧ (∀ s1 rd err s2, t.Dst.HasLayer s repository digest = ((false, none), s1) →
      t.Src.DownloadLayer s1 repository digest = ((some rd, err), s2) →
      (t.migrateLayer digest repository rl s).events.filter Event.isClose = [.Close rd]
      ∧ (t.migrateLayer digest repository rl s).events.getLast? = some (.Close rd)) := by
  refine ⟨?_, ?_, ?_⟩
  · intro b e s1 h
    simp [Trans.migrateLayer, h]
  · intro s1 h
    simp [Trans.migrateLayer, h]
  · intro s1 rd err s2 h1 h2
    cases err with
    | some e => simp [Trans.migrateLayer, h1, h2, deferredClose, Event.isClose]
    | none =>
      cases rl with
      | none =>
        rcases h3 : t.Dst.UploadLayer s2 repository digest (.body (some rd)) with ⟨err3, s3⟩
        simp [Trans.migrateLayer, h1, h2, h3, deferredClose, Event.isClose]
      | some g =>
        cases hb : Ratelimit.NewBucketWithRate g
            (Float64.toInt64 (Float64.mul g Float64.c1_2)) with
        | none => simp [Trans.migrateLayer, h1, h2, hb, deferredClose, Event.isClose]
        | some b =>
          rcases h3 : t.Dst.UploadLayer s2 repository digest (.limited (some rd) b) with
            ⟨err3, s3⟩
          simp [Trans.migrateLayer, h1, h2, hb, h3, deferredClose, Event.isClose]

/-- C10 witness: the download of the config hands back stream 0 together with
an error; the stream is closed before the error is returned. -/
theorem migrateLayer_closes_stream_witness :
    (simTrans.migrateLayer "C" "app" none Sim.badConfigDownload).events.filter Event.isClose
        = [.Close ⟨0⟩]
    ∧ (simTrans.migrateLayer "C" "app" none Sim.badConfigDownload).events.getLast?
        = some (.Close ⟨0⟩) :=
  (migrateLayer_closes_stream simTrans "C" "app" none Sim.badConfigDownload).2.2
    Sim.badConfigDownload ⟨0⟩ (some "DownloadLayer: failed")
    { Sim.badConfigDownload with nextId := 1 } (by decide) (by decide)

/-- C7 counterexample: the recorded digest of the image is not the digest the
destination computes for the pushed payload.  `Migrate` returns nil, the
digest `PushManifest` returned and the destination's manifest digest
afterwards are both different from `image.Digest`. -/
theorem Migrate_nil_digest_differs :
    (simTrans.Migrate appStale none Sim.empty).ret = .returned none
    ∧ Event.PushManifest "app" "v1" "application/json" "m1" "sha256:m1" none
        ∈ (simTrans.Migrate appStale none Sim.empty).events
    ∧ (simTrans.Dst.ManifestDigest (simTrans.Migrate appStale none Sim.empty).world
        appStale.Repository appStale.Reference).1 = ("sha256:m1", none)
    ∧ "sha256:m1" ≠ appStale.Digest := by
  decide

/-- C7, amended: if `Migrate` returns nil then either nothing was copied and
the destination's `ManifestDigest` answered `image.Digest` during `Check`, or
the copy ended with a successful `PushManifest`; the digest that call returned
is written to the log and is not compared with `image.Digest`. -/
theorem Migrate_nil_outcomes {σ F : Type} [Float64 F] [Ratelimit F]
    (t : Trans σ F) (i : Image)
    (rl : Option F) (s : σ) (hnil : (t.Migrate i rl s).ret = .returned none) :
    (t.Migrate i rl s).events =
        [.HasManifest i.Repository i.Reference true none,
         .ManifestDigest i.Repository i.Reference i.Digest none]
    ∨ ∃ before d, (t.Migrate i rl s).events =
        before ++ [.PushManifest i.Repository i.Reference i.Manifest.MediaType
          i.Manifest.canonical d none, .Println d] := by
  rcases Check_shape t i s with ⟨b, e, he, hr⟩ | ⟨he, hr⟩ | ⟨d, e, he, hr⟩ | ⟨d, he, hr⟩
  · rw [Migrate_of_check_err t i rl s false e hr] at hnil
    simp at hnil
  · right
    have hM := Migrate_of_check_copy t i rl s hr
    rw [hM] at hnil ⊢
    simp only at hnil ⊢
    rcases Start_shape t i rl (t.Check i s).world with
      ⟨h1, hS⟩ | ⟨_, h2, hS⟩ | ⟨d, err, _, _, hret, hev, hd⟩
    · rw [hS] at hnil; exact absurd hnil h1
    · rw [hS] at hnil; exact absurd hnil h2
    · rw [hret] at hnil
      injection hnil with hnil
      subst hnil
      refine ⟨(t.Check i s).events ++ ((t.migrateConfig i rl (t.Check i s).world).events
        ++ (t.migrateLayers i rl (t.migrateConfig i rl (t.Check i s).world).world).events),
        d, ?_⟩
      rw [hev, hd rfl]
      simp
  · rw [Migrate_of_check_err t i rl s false e hr] at hnil
    simp at hnil
  · by_cases hd : i.Digest = d
    · left
      have hr2 : (t.Check i s).ret = (false, none) := by simp [hr, hd]
      rw [Migrate_of_check_synced t i rl s hr2, he, hd]
    · right
      have hr2 : (t.Check i s).ret = (true, none) := by simp [hr, hd]
      have hM := Migrate_of_check_copy t i rl s hr2
      rw [hM] at hnil ⊢
      simp only at hnil ⊢
      rcases Start_shape t i rl (t.Check i s).world with
        ⟨h1, hS⟩ | ⟨_, h2, hS⟩ | ⟨d', err, _, _, hret, hev, hd'⟩
      · rw [hS] at hnil; exact absurd hnil h1
      · rw [hS] at hnil; exact absurd hnil h2
      · rw [hret] at hnil
        injection hnil with hnil
        subst hnil
        refine ⟨(t.Check i s).events ++ ((t.migrateConfig i rl (t.Check i s).world).events
          ++ (t.migrateLayers i rl (t.migrateConfig i rl (t.Check i s).world).world).events),
          d', ?_⟩
        rw [hev, hd' rfl]
        simp

/-- C7 witness: the copy of `appStale` to an empty destination returns nil and
ends with the push and the log line. -/
theorem Migrate_nil_outcomes_witness :
    (simTrans.Migrate appStale none Sim.empty).events =
        [.HasManifest "app" "v1" true none, .ManifestDigest "app" "v1" "sha256:old" none]
    ∨ ∃ before d, (simTrans.Migrate appStale none Sim.empty).events =
        before ++ [.PushManifest "app" "v1" "application/json" "m1" d none, .Println d] :=
  Migrate_nil_outcomes simTrans appStale none Sim.empty (by decide)

/-- C9 counterexample: on 4 CPUs, after `SetRateLimit(1000000)`, `Start`,
`SetRateLimit(2000000)`, a worker that picks up an image does not call
`Migrate` with 1000000/4: the upload of the config is throttled to 500000.
And after `Start`, `SetRateLimit(2000000)` the worker does not run
unthrottled. -/
theorem worker_limit_not_fixed_at_start :
    (Job.worker jobReconfigured simTrans appV1 Sim.empty).events
        ≠ (simTrans.Migrate appV1 (some (Float64.div 1000000 (Float64.ofUint 4)))
            Sim.empty).events
    ∧ Event.UploadLayer "app" "C" (.limited (some ⟨0⟩) ⟨500000, 600000⟩) none
        ∈ (Job.worker jobReconfigured simTrans appV1 Sim.empty).events
    ∧ (Job.worker jobLateConfigured simTrans appV1 Sim.empty).events
        ≠ (simTrans.Migrate appV1 none Sim.empty).events := by
  decide!

/-- C9, amended: the per-worker limit is computed each time a worker picks up
an image, from the global limit and pool size the job has at that moment.
After `SetRateLimit(g1)`, `Start`, `SetRateLimit(g2)`, and also after `Start`,
`SetRateLimit(g2)`, a worker calls `Migrate` with `g2 / float64(N)`. -/
theorem worker_uses_current_limit {σ F : Type} [Float64 F] [Ratelimit F] (j0 : Job F)
    (t : Trans σ F)
    (g2 : F) (image : Image) (s : σ) (hpos : 0 < j0.Number) (hlt : j0.Number < 2 ^ 63) :
    (∀ g1, Job.worker (((j0.setRateLimit g1).Start t).setRateLimit g2) t image s =
      t.Migrate image (some (Float64.div g2 (Float64.ofUint j0.Number.toNat))) s)
    ∧ Job.worker ((j0.Start t).setRateLimit g2) t image s =
      t.Migrate image (some (Float64.div g2 (Float64.ofUint j0.Number.toNat))) s := by
  refine ⟨?_, ?_⟩
  · intro g1
    unfold Job.worker
    rw [rateLimit_of_set (((j0.setRateLimit g1).Start t).setRateLimit g2) g2 rfl hpos hlt]
    rfl
  · unfold Job.worker
    rw [rateLimit_of_set ((j0.Start t).setRateLimit g2) g2 rfl hpos hlt]
    rfl

/-- C9 witness: the reconfigured job of the counterexample. -/
theorem worker_uses_current_limit_witness :
    Job.worker jobReconfigured simTrans appV1 Sim.empty =
      simTrans.Migrate appV1 (some (Float64.div 2000000 (Float64.ofUint (4 : Int).toNat)))
        Sim.empty :=
  (worker_uses_current_limit (Job.init 4) simTrans 2000000 appV1 Sim.empty
    (by decide) (by decide)).1 1000000

end Theorems

end Wormhole
